import Mathlib

/-!
Verification of the webnovel-to-webtoon extraction pipeline
(`webtoon_element_extractor.py`, `image_prompt_generator.py`,
`final_cut_composer.py`, and the driver loops of `main.py` / `test.py`).

Python's dynamically typed values (parsed JSON from the inference oracle,
dictionary fields) are embedded as the `PyVal` type below; the extractor's
dictionaries keyed by strings are association lists.  Machine behaviour such
as Python's string `replace` and `%03d` formatting is re-implemented here
with the same semantics so that its properties can be proved.
-/

/-- A Python/JSON value as handled by the extractor after `json.loads`. -/
inductive PyVal where
  | vNone : PyVal
  | vBool : Bool → PyVal
  | vInt : Int → PyVal
  | vStr : String → PyVal
  | vList : List PyVal → PyVal
  | vDict : List (String × PyVal) → PyVal

mutual

/-- Python `==` on embedded values (structural equality). -/
def pyBeq : PyVal → PyVal → Bool
  | PyVal.vNone, PyVal.vNone => true
  | PyVal.vBool a, PyVal.vBool b => a == b
  | PyVal.vInt a, PyVal.vInt b => a == b
  | PyVal.vStr a, PyVal.vStr b => a == b
  | PyVal.vList xs, PyVal.vList ys => pyBeqList xs ys
  | PyVal.vDict xs, PyVal.vDict ys => pyBeqDict xs ys
  | _, _ => false

/-- Python `==` on lists of embedded values. -/
def pyBeqList : List PyVal → List PyVal → Bool
  | [], [] => true
  | x :: xs, y :: ys => pyBeq x y && pyBeqList xs ys
  | _, _ => false

/-- Python `==` on dictionaries of embedded values. -/
def pyBeqDict : List (String × PyVal) → List (String × PyVal) → Bool
  | [], [] => true
  | (k1, v1) :: xs, (k2, v2) :: ys => k1 == k2 && pyBeq v1 v2 && pyBeqDict xs ys
  | _, _ => false

end

/-- Python `x in xs` membership test for embedded values. -/
def pyMem (v : PyVal) (xs : List PyVal) : Bool :=
  xs.any (fun x => pyBeq x v)

/-- A Python dictionary with string keys, in insertion order. -/
abbrev PyDict := List (String × PyVal)

/-- `d.get(k)`: value at the first occurrence of key `k`, `None` if absent. -/
def pyGet (d : PyDict) (k : String) : PyVal :=
  match d.find? (fun kv => kv.1 = k) with
  | some kv => kv.2
  | none => PyVal.vNone

/-- `d.get(k, dflt)`: the default is used only when the key is absent. -/
def pyGetOr (d : PyDict) (k : String) (dflt : PyVal) : PyVal :=
  match d.find? (fun kv => kv.1 = k) with
  | some kv => kv.2
  | none => dflt

/-- `d[k] = v`: overwrite the first binding of `k` in place, else append. -/
def pySet (d : PyDict) (k : String) (v : PyVal) : PyDict :=
  match d with
  | [] => [(k, v)]
  | kv :: rest => if kv.1 = k then (k, v) :: rest else kv :: pySet rest k v

/-- Python truthiness of the values the extractor tests with `if x:`. -/
def pyTruthy : PyVal → Bool
  | PyVal.vNone => false
  | PyVal.vBool b => b
  | PyVal.vInt n => n != 0
  | PyVal.vStr s => s ≠ ""
  | PyVal.vList xs => ¬xs.isEmpty
  | PyVal.vDict d => ¬d.isEmpty

/-- The list held by a `PyVal`, when it is a list (`isinstance(x, list)`). -/
def pyListD : PyVal → List PyVal
  | PyVal.vList xs => xs
  | _ => []

/-! ### Decimal formatting (`%03d` and `str(int)` in Python) -/

/-- One decimal digit as a character (defined for `d < 10`). -/
def decDigitChar (d : Nat) : Char := Char.ofNat (48 + d)

/-- Little-endian base-10 digits of `n`, with explicit fuel so that the
kernel can evaluate it; `[]` for `0`. -/
def digitsRevFuel : Nat → Nat → List Nat
  | 0, _ => []
  | _ + 1, 0 => []
  | f + 1, n + 1 => ((n + 1) % 10) :: digitsRevFuel f ((n + 1) / 10)

/-- Little-endian base-10 digits of `n` (`[]` for `0`). -/
def decDigits (n : Nat) : List Nat := digitsRevFuel n n

/-- Big-endian decimal digit characters of `n` (Python `str(n)` for `n : Nat`). -/
def decChars (n : Nat) : List Char :=
  if n = 0 then ['0'] else ((decDigits n).map decDigitChar).reverse

/-- Python `f"{n:03d}"`: zero-pad the decimal form of `n` to width 3. -/
def pad3 (n : Nat) : String :=
  String.mk ((if n < 10 then ['0', '0'] else if n < 100 then ['0'] else []) ++ decChars n)

/-- Decode a big-endian decimal character list (left inverse of formatting). -/
def decodeDecChars (cs : List Char) : Nat :=
  cs.foldl (fun a c => 10 * a + (c.toNat - 48)) 0

/-! ### Python `str.replace` (used for the cut-id derived dialogue prefix) -/

/-- Python `s.replace(pat, rep)` on character lists, with explicit fuel so
that the kernel can evaluate it: left-to-right, non-overlapping replacement
of every occurrence.  The fuel never runs out when it starts at the input's
length.  The empty-pattern case (never exercised by the source) leaves the
string unchanged. -/
def replaceAllFuel (pat rep : List Char) : Nat → List Char → List Char
  | _, [] => []
  | 0, c :: rest => c :: rest
  | f + 1, c :: rest =>
    match pat with
    | [] => c :: rest
    | p :: ps =>
      if (p :: ps).isPrefixOf (c :: rest) then
        rep ++ replaceAllFuel (p :: ps) rep f ((c :: rest).drop (p :: ps).length)
      else
        c :: replaceAllFuel (p :: ps) rep f rest

/-- Python `s.replace(pat, rep)` on character lists. -/
def replaceAll (pat rep s : List Char) : List Char :=
  replaceAllFuel pat rep s.length s

/-- Python `s.replace(pat, rep)` on strings. -/
def pyReplace (s pat rep : String) : String :=
  String.mk (replaceAll pat.data rep.data s.data)

/-! ### Python `str()` / `repr()` rendering (used only inside prompt strings) -/

/-- Decimal rendering of an integer. -/
def intToStr (n : Int) : String :=
  if n < 0 then "-" ++ String.mk (decChars n.natAbs) else String.mk (decChars n.natAbs)

mutual

/-- Python `str(v)` for the values interpolated into f-strings. -/
def pyToStr : PyVal → String
  | PyVal.vNone => "None"
  | PyVal.vBool b => if b then "True" else "False"
  | PyVal.vInt n => intToStr n
  | PyVal.vStr s => s
  | PyVal.vList xs => "[" ++ pyReprList xs ++ "]"
  | PyVal.vDict d => "\x7b" ++ pyReprDict d ++ "\x7d"

/-- Python `repr(v)` (string escaping elided; strings are single-quoted). -/
def pyRepr : PyVal → String
  | PyVal.vStr s => "\x27" ++ s ++ "\x27"
  | PyVal.vNone => "None"
  | PyVal.vBool b => if b then "True" else "False"
  | PyVal.vInt n => intToStr n
  | PyVal.vList xs => "[" ++ pyReprList xs ++ "]"
  | PyVal.vDict d => "\x7b" ++ pyReprDict d ++ "\x7d"

/-- Comma-separated `repr` of list elements. -/
def pyReprList : List PyVal → String
  | [] => ""
  | [x] => pyRepr x
  | x :: y :: rest => pyRepr x ++ ", " ++ pyReprList (y :: rest)

/-- Comma-separated `repr` of dictionary items. -/
def pyReprDict : List (String × PyVal) → String
  | [] => ""
  | [(k, v)] => "\x27" ++ k ++ "\x27: " ++ pyRepr v
  | (k, v) :: kv :: rest => "\x27" ++ k ++ "\x27: " ++ pyRepr v ++ ", " ++ pyReprDict (kv :: rest)

end

/-! ### Data model (`webtoon_element_extractor.py`)

A character record as stored in `character_database` (source lines 301-308):
a dictionary with fixed keys, embedded as a structure.  Values supplied by
the oracle stay `PyVal`. -/

/-- One record of the character identity store. -/
structure CharRec where
  id : String
  name : PyVal
  aliases : List PyVal
  appearance : PyVal
  outfit : PyVal
  first_seen_cut : String
  last_seen_cut : String
  all_actions : PyDict
  all_emotions : PyDict

/-- The character identity store: insertion-ordered dictionary keyed by id. -/
abbrev CharDB := List (String × CharRec)

/-- `character_database.get(k)`: value at the first binding of `k`. -/
def dbFind (db : CharDB) (k : String) : Option CharRec :=
  match db with
  | [] => none
  | kv :: rest => if kv.1 = k then some kv.2 else dbFind rest k

/-- `character_database[k] = r`: overwrite in place or append. -/
def dbSet (db : CharDB) (k : String) (r : CharRec) : CharDB :=
  match db with
  | [] => [(k, r)]
  | kv :: rest => if kv.1 = k then (k, r) :: rest else kv :: dbSet rest k r

/-- The per-cut character view built at source lines 328-336. -/
structure CharView where
  id : String
  name : PyVal
  appearance : PyVal
  outfit : PyVal
  expression : PyVal
  emotion : PyVal
  action : PyVal

/-- A dialogue entry: the oracle's dictionary plus the id the extractor
assigned (`dlg_info['id']`) and the resolved speaker (`dlg_info['speaker_id']`). -/
structure Dialogue where
  fields : PyDict
  id : String
  speaker_id : Option String

/-- One segmented scene (`{"id": ..., "text": ...}`, source lines 94-102). -/
structure Scene where
  id : String
  text : PyVal

/-- The per-cut result dictionary of `process_single_cut_text` (lines 368-376). -/
structure CutElements where
  cut_id : String
  original_text_for_cut : String
  characters : List CharView
  composition : PyDict
  background : PyDict
  dialogues : List Dialogue
  speech_bubble_guidance : List PyVal

/-- The extractor's mutable counters (source lines 13-15). -/
structure ExtractorState where
  character_id_counter : Nat
  dialogue_id_counter : Nat
  scene_id_counter : Nat

/-- `_get_new_character_id`: increment the counter, return `char_NNN`. -/
def _get_new_character_id (c : Nat) : String × Nat :=
  ("char_" ++ pad3 (c + 1), c + 1)

/-- `_get_new_dialogue_id`: increment the counter, return `dlg_<prefix>_NNN`. -/
def _get_new_dialogue_id (cutStem : String) (c : Nat) : String × Nat :=
  ("dlg_" ++ cutStem ++ "_" ++ pad3 (c + 1), c + 1)

/-- `_get_new_scene_id`: increment the counter, return `cut_NNN`. -/
def _get_new_scene_id (c : Nat) : String × Nat :=
  ("cut_" ++ pad3 (c + 1), c + 1)

/-- `cut_id.replace("cut_", "")` (source line 342). -/
def cut_id_stem (cut_id : String) : String :=
  pyReplace cut_id "cut_" ""

/-! ### The inference oracle client

The oracle is external: its raw text response and the value that
`_call_gemini` obtains from it after stripping fences and `json.loads`
(source lines 38-59) are abstracted as unconstrained functions of the
prompt; the parse-failure fallbacks live inside `parsedResponse`.  What the
source guarantees without a model — `if not self.model: return None`
(lines 36-37) — is kept explicit. -/

/-- An initialized oracle client: raw text generation plus the parsed value
`_call_gemini` would extract from the raw response of a given prompt for a
given task description. -/
structure GeminiModel where
  generateContent : String → String
  parsedResponse : String → String → PyVal

/-- `_call_gemini` with an invocation count: `None` and no call without a
model, otherwise one `generate_content` call and the parsed value. -/
def _call_gemini_counted (model : Option GeminiModel) (prompt task : String) :
    PyVal × Nat :=
  match model with
  | none => (PyVal.vNone, 0)
  | some m => (m.parsedResponse prompt task, 1)

/-- `_call_gemini` (source lines 35-59). -/
def _call_gemini (model : Option GeminiModel) (prompt task : String) : PyVal :=
  (_call_gemini_counted model prompt task).1

/-! ### Prompt builders

The fixed instruction text of each prompt is abbreviated to a short tag;
every dynamic datum the source interpolates is retained.  No proved
property depends on prompt wording: the oracle's response is universally
quantified everywhere. -/

/-- Summary of the store for the character prompt (source lines 113-119). -/
def db_summary (db : CharDB) : String :=
  if db.isEmpty then "없음"
  else String.intercalate "\n" (db.map (fun kv =>
    "- ID: " ++ kv.1 ++ ", 이름: " ++ pyToStr kv.2.name))

/-- Scene segmentation prompt (source lines 67-87). -/
def scene_segmentation_prompt (novel_text : String) : String :=
  "scene segmentation\n" ++ novel_text

/-- Character configuration prompt (source lines 121-153). -/
def character_configuration_prompt (cut_text scene_context : String) (db : CharDB) : String :=
  "character configuration\n" ++ db_summary db ++ "\n" ++ scene_context ++ "\n" ++ cut_text

/-- Composition prompt (source lines 181-192). -/
def composition_prompt (cut_text scene_context : String) : String :=
  "composition configuration\n" ++ scene_context ++ "\n" ++ cut_text

/-- Background prompt (source lines 198-209). -/
def background_prompt (cut_text scene_context : String) : String :=
  "background configuration\n" ++ scene_context ++ "\n" ++ cut_text

/-- Dialogue separation prompt (source lines 216-228). -/
def dialogue_separation_prompt (cut_text : String) : String :=
  "dialogue separation\n" ++ cut_text

/-- Speech bubble guidance prompt (source lines 249-282). -/
def speech_bubble_prompt (char_summary dialogue_summary : String)
    (composition_settings : PyDict) : String :=
  "speech bubble guidance\n" ++ char_summary ++ "\n" ++ dialogue_summary ++ "\n" ++
    pyToStr (PyVal.vDict composition_settings)

/-! ### Scene segmentation (`segment_scenes`, source lines 61-105) -/

/-- Collect the response entries that are dictionaries with a `text` key,
minting a scene id for each (source lines 90-97). -/
def collect_scenes : List PyVal → Nat → List Scene × Nat
  | [], c => ([], c)
  | PyVal.vDict d :: rest, c =>
    if (d.find? (fun kv => kv.1 = "text")).isSome then
      let (sid, c1) := _get_new_scene_id c
      let (ss, c2) := collect_scenes rest c1
      (⟨sid, pyGet d "text"⟩ :: ss, c2)
    else collect_scenes rest c
  | _ :: rest, c => collect_scenes rest c

/-- The scenes usable from the oracle's segmentation response: a non-list
or unparsed response yields none (lines 88-97). -/
def usable_scenes (model : Option GeminiModel) (novel_text : String) : List Scene × Nat :=
  match _call_gemini model (scene_segmentation_prompt novel_text) "scene segmentation" with
  | PyVal.vList xs => collect_scenes xs 0
  | _ => ([], 0)

/-- The placeholder text used when segmentation produced no scene: it
depends on whether a model is configured (lines 98-102). -/
def segment_fallback_text (model : Option GeminiModel) : String :=
  match model with
  | none => "Wrong Response"
  | some _ => "LLM으로부터 장면 분할 정보를 받지 못했습니다."

/-- `segment_scenes` (source lines 61-105): the scene counter is reset on
entry (line 65); an empty or unusable response degrades to a single
placeholder scene (lines 98-102). -/
def segment_scenes (model : Option GeminiModel) (novel_text : String)
    (st : ExtractorState) : List Scene × ExtractorState :=
  let (final_scenes, c) := usable_scenes model novel_text
  if final_scenes.isEmpty then
    let (sid, c1) := _get_new_scene_id c
    ([⟨sid, PyVal.vStr (segment_fallback_text model)⟩], { st with scene_id_counter := c1 })
  else (final_scenes, { st with scene_id_counter := c })

/-! ### Character configuration (`configure_characters`, source lines 107-177) -/

/-- A character mention after the id bookkeeping of lines 161-176: the
(mutated) oracle dictionary plus its final id and `is_actually_new` flag. -/
structure LlmCharacter where
  fields : PyDict
  id : String
  is_actually_new : Bool

/-- Python `s.startswith(pre)`. -/
def pyStartsWith (s pre : String) : Bool :=
  pre.data.isPrefixOf s.data

/-- The id the oracle proposed, when it can be merged into: a string that
is not `"NEW"`, starts with `"char_"`, and is a key of the store
(source lines 163 and 167). -/
def mergeable_char_id (db : CharDB) : PyVal → Option String
  | PyVal.vStr s =>
    if s = "NEW" ∨ ¬pyStartsWith s "char_" then none
    else if (dbFind db s).isSome then some s else none
  | _ => none

/-- Lines 161-176 for one response entry. -/
def process_llm_char (db : CharDB) (c : Nat) (d : PyDict) : LlmCharacter × Nat :=
  match mergeable_char_id db (pyGet d "id") with
  | some s =>
    (⟨pySet d "is_actually_new" (PyVal.vBool false), s, false⟩, c)
  | none =>
    let (cid, c1) := _get_new_character_id c
    (⟨pySet (pySet d "id" (PyVal.vStr cid)) "is_actually_new" (PyVal.vBool true),
      cid, true⟩, c1)

/-- The response loop of lines 157-176; non-dictionary entries are skipped. -/
def process_llm_chars (db : CharDB) : List PyVal → Nat → List LlmCharacter × Nat
  | [], c => ([], c)
  | PyVal.vDict d :: rest, c =>
    let (p, c1) := process_llm_char db c d
    let (ps, c2) := process_llm_chars db rest c1
    (p :: ps, c2)
  | _ :: rest, c => process_llm_chars db rest c

/-- `configure_characters` (source lines 107-177). -/
def configure_characters (model : Option GeminiModel) (cut_text scene_context : String)
    (existing_character_database : CharDB) (c : Nat) : List LlmCharacter × Nat :=
  match _call_gemini model
      (character_configuration_prompt cut_text scene_context existing_character_database)
      "character configuration with continuity" with
  | PyVal.vList items => process_llm_chars existing_character_database items c
  | _ => ([], c)

/-! ### Composition and background (source lines 179-211) -/

/-- `configure_composition`: a structured descriptor, `{}` on fallback. -/
def configure_composition (model : Option GeminiModel) (cut_text scene_context : String) :
    PyDict :=
  match _call_gemini model (composition_prompt cut_text scene_context)
      "composition configuration" with
  | PyVal.vDict d => d
  | _ => []

/-- `configure_background`: a structured descriptor, `{}` on fallback. -/
def configure_background (model : Option GeminiModel) (cut_text scene_context : String) :
    PyDict :=
  match _call_gemini model (background_prompt cut_text scene_context)
      "background configuration" with
  | PyVal.vDict d => d
  | _ => []

/-! ### Dialogue separation (`separate_dialogues`, source lines 213-237) -/

/-- The response loop of lines 232-236: keep dictionary entries, mint an id
for each. -/
def collect_dialogues (cutStem : String) : List PyVal → Nat → List Dialogue × Nat
  | [], c => ([], c)
  | PyVal.vDict d :: rest, c =>
    let (did, c1) := _get_new_dialogue_id cutStem c
    let (ds, c2) := collect_dialogues cutStem rest c1
    (⟨pySet d "id" (PyVal.vStr did), did, none⟩ :: ds, c2)
  | _ :: rest, c => collect_dialogues cutStem rest c

/-- `separate_dialogues`: the dialogue counter is reset on entry (line 214). -/
def separate_dialogues (model : Option GeminiModel) (cut_text cutStem : String) :
    List Dialogue × Nat :=
  match _call_gemini model (dialogue_separation_prompt cut_text) "dialogue separation" with
  | PyVal.vList items => collect_dialogues cutStem items 0
  | _ => ([], 0)

/-! ### Speech bubble guidance (`guide_speech_bubble_placement`, lines 240-284) -/

/-- Character summary lines for the bubble prompt (lines 249-254). -/
def bubble_char_summary (characters_in_cut : List CharView) : String :=
  String.intercalate "\n" (characters_in_cut.map (fun ch =>
    "캐릭터 ID: " ++ ch.id ++ ", 이름: " ++ pyToStr ch.name ++
      ", 현재 행동/위치 단서: " ++ pyToStr ch.action ++ " (" ++ pyToStr ch.expression ++ " 표정)"))

/-- Dialogue summary lines for the bubble prompt (lines 256-261). -/
def bubble_dialogue_summary (dialogues_in_cut : List Dialogue) : String :=
  String.intercalate "\n" (dialogues_in_cut.map (fun dlg =>
    "대사 ID: " ++ dlg.id ++ ", 화자 ID(추정): " ++
      pyToStr (pyGetOr dlg.fields "speaker_id" (pyGet dlg.fields "speaker_name_guess")) ++
      ", 내용: " ++ pyToStr (pyGet dlg.fields "text") ++
      ", 뉘앙스: " ++ pyToStr (pyGet dlg.fields "nuance")))

/-- `guide_speech_bubble_placement`, paired with the number of oracle
invocations it performs: an empty dialogue list returns `[]` before any
prompt is built or call made (lines 245-246). -/
def guide_speech_bubble_placement (model : Option GeminiModel)
    (dialogues_in_cut : List Dialogue) (characters_in_cut : List CharView)
    (composition_settings : PyDict) : List PyVal × Nat :=
  if dialogues_in_cut.isEmpty then ([], 0)
  else
    let prompt := speech_bubble_prompt (bubble_char_summary characters_in_cut)
      (bubble_dialogue_summary dialogues_in_cut) composition_settings
    let (r, n) := _call_gemini_counted model prompt "speech bubble guidance"
    match r with
    | PyVal.vList gs => (gs, n)
    | _ => ([], n)

/-! ### Store mutation and per-cut views (`process_single_cut_text`, lines 296-337) -/

/-- `list(set(xs))`: deduplicate under Python equality (the set's iteration
order is unspecified in Python; first occurrence order is used here). -/
def pyDedup (xs : List PyVal) : List PyVal :=
  xs.foldl (fun acc x => if pyMem x acc then acc else acc ++ [x]) []

/-- `set(old); set.update(new); list(...)` (lines 313-315): membership is
the union; `old` is kept in place and genuinely new elements appended. -/
def aliasUnion (old new : List PyVal) : List PyVal :=
  old ++ pyDedup (new.filter (fun x => ¬pyMem x old))

/-- The oracle value of a string option (`speaker_id` is `None` or an id). -/
def optStrToPy : Option String → PyVal
  | none => PyVal.vNone
  | some s => PyVal.vStr s

/-- Lines 300-326: apply one mention to the store.  A new mention creates a
record (lines 301-308); a mention whose id is in the store merges
(lines 310-323); otherwise the store is untouched (lines 325-326). -/
def update_db_for_char (cut_id : String) (db : CharDB) (ch : LlmCharacter) : CharDB :=
  if ch.is_actually_new then
    dbSet db ch.id
      { id := ch.id
        name := pyGet ch.fields "name"
        aliases := pyDedup (pyListD (pyGetOr ch.fields "aliases" (PyVal.vList [])))
        appearance := pyGet ch.fields "appearance"
        outfit := pyGet ch.fields "outfit"
        first_seen_cut := cut_id
        last_seen_cut := cut_id
        all_actions := [(cut_id, pyGet ch.fields "action")]
        all_emotions := [(cut_id, pyGet ch.fields "emotion")] }
  else
    match dbFind db ch.id with
    | some existing =>
      dbSet db ch.id
        { existing with
          name := pyGetOr ch.fields "name" existing.name
          aliases := aliasUnion existing.aliases
            (pyListD (pyGetOr ch.fields "aliases" (PyVal.vList [])))
          appearance := if pyTruthy (pyGet ch.fields "appearance") then
              pyGet ch.fields "appearance" else existing.appearance
          outfit := if pyTruthy (pyGet ch.fields "outfit") then
              pyGet ch.fields "outfit" else existing.outfit
          last_seen_cut := cut_id
          all_actions := pySet existing.all_actions cut_id (pyGet ch.fields "action")
          all_emotions := pySet existing.all_emotions cut_id (pyGet ch.fields "emotion") }
    | none => db

/-- Lines 328-336: the per-cut view, layering store values (after the
update) with this cut's point-in-time expression/emotion/action. -/
def char_view_for_cut (db : CharDB) (ch : LlmCharacter) : CharView :=
  match dbFind db ch.id with
  | some r =>
    ⟨ch.id, r.name, r.appearance, r.outfit,
      pyGet ch.fields "expression", pyGet ch.fields "emotion", pyGet ch.fields "action"⟩
  | none =>
    ⟨ch.id, pyGet ch.fields "name", pyGet ch.fields "appearance", pyGet ch.fields "outfit",
      pyGet ch.fields "expression", pyGet ch.fields "emotion", pyGet ch.fields "action"⟩

/-- The loop of lines 297-337: fold the mentions over the store, collecting
the view list. -/
def resolve_cut_characters (cut_id : String) :
    List LlmCharacter → CharDB → List CharView × CharDB
  | [], db => ([], db)
  | ch :: rest, db =>
    let db1 := update_db_for_char cut_id db ch
    let v := char_view_for_cut db1 ch
    let (vs, db2) := resolve_cut_characters cut_id rest db1
    (v :: vs, db2)

/-! ### Speaker attribution (`process_single_cut_text`, lines 345-364) -/

/-- Lines 353-354 and 359-360: exact name-or-alias match of a guess against
one store record. -/
def char_matches_guess (rec : CharRec) (guess : PyVal) : Bool :=
  pyBeq rec.name guess || pyMem guess rec.aliases

/-- Lines 350-356: scan the cut's views in order; each view is matched via
its store record; first match wins. -/
def find_speaker_in_views (db : CharDB) (guess : PyVal) : List CharView → Option String
  | [] => none
  | v :: rest =>
    match dbFind db v.id with
    | some rec =>
      if char_matches_guess rec guess then some v.id
      else find_speaker_in_views db guess rest
    | none => find_speaker_in_views db guess rest

/-- Lines 357-362: fall back to a full scan of the store, in order. -/
def find_speaker_in_db (guess : PyVal) : CharDB → Option String
  | [] => none
  | (k, rec) :: rest =>
    if char_matches_guess rec guess then some k else find_speaker_in_db guess rest

/-- Lines 347-363: resolve one dialogue's `speaker_id` from its
`speaker_name_guess`; a falsy guess resolves to `None`. -/
def resolve_speaker_id (views : List CharView) (db : CharDB) (guess : PyVal) :
    Option String :=
  if pyTruthy guess then
    match find_speaker_in_views db guess views with
    | some cid => some cid
    | none => find_speaker_in_db guess db
  else none

/-- The attribution loop (lines 345-364): each raw dialogue receives the
resolved `speaker_id`, both as a field of its dictionary and as the
structured value. -/
def attribute_speakers (views : List CharView) (db : CharDB) (ds : List Dialogue) :
    List Dialogue :=
  ds.map (fun dlg =>
    let sid := resolve_speaker_id views db (pyGet dlg.fields "speaker_name_guess")
    { dlg with fields := pySet dlg.fields "speaker_id" (optStrToPy sid), speaker_id := sid })

/-- `process_single_cut_text` (source lines 286-376). -/
def process_single_cut_text (model : Option GeminiModel)
    (cut_id cut_text scene_context : String) (character_database : CharDB)
    (st : ExtractorState) : CutElements × CharDB × ExtractorState :=
  let (chars_llm, cc) :=
    configure_characters model cut_text scene_context character_database
      st.character_id_counter
  let (active_characters_in_cut, db1) :=
    resolve_cut_characters cut_id chars_llm character_database
  let composition := configure_composition model cut_text scene_context
  let background := configure_background model cut_text scene_context
  let cut_id_stem_for_dialogue := cut_id_stem cut_id
  let (dialogues_raw, dc) := separate_dialogues model cut_text cut_id_stem_for_dialogue
  let updated_dialogues := attribute_speakers active_characters_in_cut db1 dialogues_raw
  let (speech_bubbles, _) := guide_speech_bubble_placement model updated_dialogues
    active_characters_in_cut composition
  (⟨cut_id, cut_text, active_characters_in_cut, composition, background,
      updated_dialogues, speech_bubbles⟩,
    db1,
    ⟨cc, dc, st.scene_id_counter⟩)

/-! ### Image prompt generation (`image_prompt_generator.py`, lines 14-65) -/

/-- One character description line (line 21). -/
def char_desc (ch : CharView) : String :=
  pyToStr ch.name ++ " (" ++ pyToStr ch.appearance ++ ", wearing " ++ pyToStr ch.outfit ++
    ") is " ++ pyToStr ch.action ++ " with an expression of " ++ pyToStr ch.expression ++ "."

/-- The composition sentence (lines 30-32). -/
def comp_desc (comp : PyDict) : String :=
  let base := "Scene composition: " ++ pyToStr (pyGetOr comp "shot_type" (PyVal.vStr "medium shot")) ++
    ", " ++ pyToStr (pyGetOr comp "camera_angle" (PyVal.vStr "eye level"))
  if pyTruthy (pyGet comp "focus_element") then
    base ++ ", focusing on " ++ pyToStr (pyGet comp "focus_element")
  else base

/-- The background sentence (lines 34-38). -/
def bg_desc (bg : PyDict) : String :=
  let base := "Background: " ++ pyToStr (pyGetOr bg "specific_place" (PyVal.vStr "a generic place")) ++
    " (" ++ pyToStr (pyGetOr bg "location_type" (PyVal.vStr "outdoor")) ++ ") at " ++
    pyToStr (pyGetOr bg "time_of_day" (PyVal.vStr "daytime"))
  let base := if pyTruthy (pyGet bg "weather") then
      base ++ ", weather is " ++ pyToStr (pyGet bg "weather") else base
  let base := if pyTruthy (pyGet bg "key_props") then
      base ++ ". Key props: " ++
        String.intercalate ", " ((pyListD (pyGetOr bg "key_props" (PyVal.vList []))).map pyToStr)
    else base
  if pyTruthy (pyGet bg "atmosphere") then
    base ++ ". Overall atmosphere: " ++ pyToStr (pyGet bg "atmosphere")
  else base

/-- Lines 27-49: the rule-assembled image prompt. -/
def assembled_image_prompt (extracted : CutElements) (style : PyDict) : String :=
  let char_descs := extracted.characters.map char_desc
  let core_parts :=
    (if char_descs.isEmpty then [] else [String.intercalate ", " char_descs]) ++
      [comp_desc extracted.composition ++ ".", bg_desc extracted.background ++ "."]
  let prompt_core := String.intercalate " " core_parts
  let style_parts :=
    (if pyTruthy (pyGet style "art_style") then
      ["Art style: " ++ pyToStr (pyGet style "art_style") ++ "."] else []) ++
    (if pyTruthy (pyGet style "color_palette") then
      ["Color palette: " ++ pyToStr (pyGet style "color_palette") ++ "."] else [])
  prompt_core ++ " " ++ String.intercalate " " style_parts

/-- `generate_prompt` (lines 14-65): after assembling the rule-based prompt
it unconditionally calls `self.model.generate_content(...)`; when the
client was constructed without a model (`self.model is None`) this raises
`AttributeError`, modelled as `Except.error`. -/
def generate_prompt (model : Option GeminiModel) (extracted : CutElements)
    (style : PyDict) : Except String String :=
  let for_better_prompt := "prompt enhancement\n" ++ assembled_image_prompt extracted style
  match model with
  | none =>
    Except.error "AttributeError: \x27NoneType\x27 object has no attribute \x27generate_content\x27"
  | some m => Except.ok (m.generateContent for_better_prompt).trim

/-! ### Final composition (`final_cut_composer.py`, lines 13-47) -/

/-- `v.get(k)` where `v` should be a dictionary.  (On a non-dictionary
guidance entry Python itself would raise; such entries carry no keys here.) -/
def pyGetV (v : PyVal) (k : String) : PyVal :=
  match v with
  | PyVal.vDict d => pyGet d k
  | _ => PyVal.vNone

/-- As `pyGetV` with an explicit default. -/
def pyGetVOr (v : PyVal) (k : String) (dflt : PyVal) : PyVal :=
  match v with
  | PyVal.vDict d => pyGetOr d k dflt
  | _ => dflt

/-- Line 33: the first guidance entry whose `dialogue_id` equals the
dialogue's id, defaulting to `{}`. -/
def guidance_for_dialogue (speech_bubble_guidance_for_cut : List PyVal) (dlg : Dialogue) :
    PyVal :=
  match speech_bubble_guidance_for_cut.find?
      (fun g => pyBeq (pyGetV g "dialogue_id") (PyVal.vStr dlg.id)) with
  | some g => g
  | none => PyVal.vDict []

/-- Lines 34-40: one overlay line for one dialogue. -/
def dialogue_overlay_line (speech_bubble_guidance_for_cut : List PyVal) (dlg : Dialogue) :
    String :=
  let guidance := guidance_for_dialogue speech_bubble_guidance_for_cut dlg
  "  Dialogue ID: " ++ pyToStr (pyGetOr dlg.fields "id" (PyVal.vStr "N/A")) ++
    ", Speaker: " ++ pyToStr (pyGetOr dlg.fields "speaker" (PyVal.vStr "N/A")) ++
    ", Text: \"" ++ pyToStr (pyGetOr dlg.fields "text" (PyVal.vStr "N/A")) ++
    "\" (Nuance: " ++ pyToStr (pyGetOr dlg.fields "nuance" (PyVal.vStr "N/A")) ++
    "), Bubble Suggestion: " ++ pyToStr (pyGetVOr guidance "suggested_area" (PyVal.vStr "N/A")) ++
    " (" ++ pyToStr (pyGetVOr guidance "bubble_style_hint" (PyVal.vStr "N/A")) ++ ")"

/-- `add_dialogues_to_image` (lines 13-47).  Image bytes are modelled as
strings; with no dialogues the base image is returned unchanged, otherwise
the textual overlay is appended. -/
def add_dialogues_to_image (base_image_data : String)
    (dialogues_for_cut : List Dialogue)
    (speech_bubble_guidance_for_cut : List PyVal) : String :=
  if dialogues_for_cut.isEmpty then base_image_data
  else
    base_image_data ++
      String.intercalate "\n"
        ("\n--- Applied Dialogues ---" ::
          dialogues_for_cut.map (dialogue_overlay_line speech_bubble_guidance_for_cut))

/-! ### Pipeline drivers (`main.py` lines 10-91 and `test.py` lines 45-78) -/

/-- The per-cut context string (`test.py` lines 53-54; the same f-string
appears at `main.py` line 56): the previous cut's text followed by the
fixed leading excerpt of the whole work. -/
def build_scene_context (segmented_scenes : List Scene)
    (initial_scene_context : String) (i : Nat) : String :=
  let previous_cut_text :=
    if 0 < i then pyToStr ((segmented_scenes.getD (i - 1) ⟨"", PyVal.vStr ""⟩).text)
    else ""
  "이전 컷 내용: " ++ previous_cut_text ++
    "\n\n현재 분석할 장면의 전체적인 문맥: " ++ initial_scene_context

/-- The context strings the `test.py` driver loop constructs, one per
segmented cut in order (`initial_scene_context = novel_text[:500]`,
`test.py` line 46). -/
def test_driver_scene_contexts (segmented_scenes : List Scene) (novel_text : String) :
    List String :=
  (List.range segmented_scenes.length).map
    (build_scene_context segmented_scenes (novel_text.take 500))

/-- `webnovel_to_webtoon_pipeline` of `main.py`.  Its per-scene loop is
`for scene_info in segmented_scenes:` (line 51) while the body reads a
variable `i` (lines 52 and 55) that is never bound inside the function, so
the first iteration raises `NameError`; with at least one segmented scene
the run aborts with no per-cut result.  Exceptions are `Except.error`. -/
def webnovel_to_webtoon_pipeline (model : Option GeminiModel) (novel_text : String) :
    Except String (List CutElements) :=
  let (segmented_scenes, _) := segment_scenes model novel_text ⟨0, 0, 0⟩
  if segmented_scenes.isEmpty then Except.ok []
  else Except.error "NameError: name \x27i\x27 is not defined"

/-- A concrete oracle used to exercise the theorems on sample data: it
identifies one new character and one dialogue spoken by her. -/
def oracle_new_char : GeminiModel :=
  ⟨fun _ => "",
    fun _ task =>
      if task = "character configuration with continuity" then
        PyVal.vList [PyVal.vDict [("id", PyVal.vStr "NEW"),
          ("name", PyVal.vStr "영희"), ("aliases", PyVal.vList [PyVal.vStr "그녀"])]]
      else if task = "dialogue separation" then
        PyVal.vList [PyVal.vDict [("speaker_name_guess", PyVal.vStr "영희"),
          ("text", PyVal.vStr "안녕"), ("nuance", PyVal.vStr "기쁨")]]
      else PyVal.vNone⟩

/-- A concrete oracle whose character mention merges into `char_001` and
contributes a new alias. -/
def oracle_merge_alias : GeminiModel :=
  ⟨fun _ => "",
    fun _ task =>
      if task = "character configuration with continuity" then
        PyVal.vList [PyVal.vDict [("id", PyVal.vStr "char_001"),
          ("name", PyVal.vStr "영희"), ("aliases", PyVal.vList [PyVal.vStr "그 여인"])]]
      else PyVal.vNone⟩

/-- A concrete oracle whose character mention is flagged novel while
referencing the existing id `char_001`. -/
def oracle_flagged_novel : GeminiModel :=
  ⟨fun _ => "",
    fun _ task =>
      if task = "character configuration with continuity" then
        PyVal.vList [PyVal.vDict [("id", PyVal.vStr "char_001"),
          ("is_new_character_suggestion", PyVal.vBool true)]]
      else PyVal.vNone⟩

/-- A one-record store holding `char_001` (named 영희, alias 그녀). -/
def sample_store : CharDB :=
  [("char_001",
    ⟨"char_001", PyVal.vStr "영희", [PyVal.vStr "그녀"], PyVal.vNone, PyVal.vNone,
      "cut_001", "cut_001", [], []⟩)]

/-- The oracle dictionary of `oracle_flagged_novel` paired with the
processed mention `configure_characters` makes of it. -/
def flagged_pair : PyDict × LlmCharacter :=
  ([("id", PyVal.vStr "char_001"), ("is_new_character_suggestion", PyVal.vBool true)],
    ⟨[("id", PyVal.vStr "char_001"), ("is_new_character_suggestion", PyVal.vBool true),
      ("is_actually_new", PyVal.vBool false)], "char_001", false⟩)

/-! ### Properties -/

theorem ofDigits_digitsRevFuel (f n : Nat) (h : n ≤ f) :
    Nat.ofDigits 10 (digitsRevFuel f n) = n := by
  induction f generalizing n with
  | zero => interval_cases n; rfl
  | succ f ih =>
    cases n with
    | zero => rfl
    | succ m =>
      have hdiv : (m + 1) / 10 ≤ f := by
        have := Nat.div_lt_self (Nat.succ_pos m) (by norm_num : 1 < 10)
        omega
      simp only [digitsRevFuel, Nat.ofDigits_cons, ih _ hdiv]
      omega

theorem ofDigits_decDigits (n : Nat) : Nat.ofDigits 10 (decDigits n) = n :=
  ofDigits_digitsRevFuel n n (Nat.le_refl n)

theorem digitsRevFuel_lt (f n : Nat) : ∀ d ∈ digitsRevFuel f n, d < 10 := by
  induction f generalizing n with
  | zero => intro d hd; simp [digitsRevFuel] at hd
  | succ f ih =>
    cases n with
    | zero => intro d hd; simp [digitsRevFuel] at hd
    | succ m =>
      intro d hd
      simp only [digitsRevFuel, List.mem_cons] at hd
      rcases hd with h | h
      · omega
      · exact ih _ d h

theorem decodeDecChars_zero_cons (cs : List Char) :
    decodeDecChars ('0' :: cs) = decodeDecChars cs := by
  have h : 10 * 0 + (Char.toNat '0' - 48) = 0 := by decide
  simp only [decodeDecChars, List.foldl_cons, h]

theorem foldl_decode_digits (L : List Nat) (hL : ∀ d ∈ L, d < 10) (a : Nat) :
    (L.map decDigitChar).reverse.foldl (fun x c => 10 * x + (c.toNat - 48)) a =
      a * 10 ^ L.length + Nat.ofDigits 10 L := by
  induction L generalizing a with
  | nil => simp [Nat.ofDigits]
  | cons d rest ih =>
    have hd : d < 10 := hL d (by simp)
    have hrest : ∀ x ∈ rest, x < 10 := fun x hx => hL x (by simp [hx])
    have hchar : (decDigitChar d).toNat - 48 = d := by
      interval_cases d <;> decide
    simp only [List.map_cons, List.reverse_cons, List.foldl_append, List.foldl_cons,
      List.foldl_nil, ih hrest, hchar, Nat.ofDigits_cons, List.length_cons]
    ring

theorem decodeDecChars_decChars (n : Nat) : decodeDecChars (decChars n) = n := by
  by_cases h : n = 0
  · subst h; rfl
  · simp only [decChars, if_neg h, decodeDecChars]
    rw [foldl_decode_digits (decDigits n) (digitsRevFuel_lt n n) 0]
    simp [ofDigits_decDigits]

theorem decodeDecChars_pad3_data (n : Nat) : decodeDecChars (pad3 n).data = n := by
  unfold pad3
  by_cases h1 : n < 10
  · simp only [if_pos h1, String.data]
    rw [List.cons_append, List.cons_append, List.nil_append,
      decodeDecChars_zero_cons, decodeDecChars_zero_cons, decodeDecChars_decChars]
  · by_cases h2 : n < 100
    · simp only [if_neg h1, if_pos h2, String.data]
      rw [List.cons_append, List.nil_append, decodeDecChars_zero_cons,
        decodeDecChars_decChars]
    · simp only [if_neg h1, if_neg h2, String.data, List.nil_append,
        decodeDecChars_decChars]

theorem pad3_injective : Function.Injective pad3 := by
  intro a b hab
  have : decodeDecChars (pad3 a).data = decodeDecChars (pad3 b).data := by rw [hab]
  rwa [decodeDecChars_pad3_data, decodeDecChars_pad3_data] at this

theorem pad3_one : pad3 1 = "001" := by decide

theorem pad3_two : pad3 2 = "002" := by decide

theorem pad3_twelve : pad3 12 = "012" := by decide

theorem replaceAllFuel_irrel (pat rep : List Char) :
    ∀ f g s, s.length ≤ f → s.length ≤ g →
      replaceAllFuel pat rep f s = replaceAllFuel pat rep g s := by
  intro f
  induction f with
  | zero =>
    intro g s hf _
    have : s = [] := List.length_eq_zero.mp (Nat.le_zero.mp hf)
    subst this
    cases g <;> rfl
  | succ f ih =>
    intro g s hf hg
    cases s with
    | nil => cases g <;> rfl
    | cons c rest =>
      have hg1 : 0 < g := by
        simp only [List.length_cons] at hg
        omega
      obtain ⟨g1, rfl⟩ : ∃ g1, g = g1 + 1 := ⟨g - 1, by omega⟩
      cases pat with
      | nil => rfl
      | cons p ps =>
        simp only [replaceAllFuel]
        by_cases hpre : (p :: ps).isPrefixOf (c :: rest)
        · rw [if_pos hpre, if_pos hpre]
          congr 1
          apply ih
          · simp only [List.length_drop, List.length_cons] at *
            omega
          · simp only [List.length_drop, List.length_cons] at *
            omega
        · rw [if_neg hpre, if_neg hpre]
          congr 1
          apply ih
          · simp only [List.length_cons] at hf
            omega
          · simp only [List.length_cons] at hg
            omega

theorem replaceAllFuel_of_head_not_mem (p : Char) (ps rep : List Char) :
    ∀ f t, t.length ≤ f → p ∉ t → replaceAllFuel (p :: ps) rep f t = t := by
  intro f
  induction f with
  | zero => intro t _ _; cases t <;> rfl
  | succ f ih =>
    intro t hf hmem
    cases t with
    | nil => rfl
    | cons c rest =>
      have hpc : p ≠ c := fun h => hmem (h ▸ List.mem_cons_self c rest)
      have hnp : ¬(p :: ps).isPrefixOf (c :: rest) := by
        simp only [List.isPrefixOf_cons₂]
        intro hcontra
        exact hpc (eq_of_beq ((Bool.and_eq_true _ _).mp hcontra).1)
      simp only [replaceAllFuel, if_neg hnp]
      have hrest : p ∉ rest := fun h => hmem (List.mem_cons_of_mem c h)
      have hlen : rest.length ≤ f := by
        simp only [List.length_cons] at hf
        omega
      rw [ih rest hlen hrest]

theorem replaceAll_of_head_not_mem (p : Char) (ps rep t : List Char) (hmem : p ∉ t) :
    replaceAll (p :: ps) rep t = t :=
  replaceAllFuel_of_head_not_mem p ps rep t.length t (Nat.le_refl _) hmem

theorem replaceAll_strip_head (p : Char) (ps rep t : List Char) :
    replaceAll (p :: ps) rep ((p :: ps) ++ t) = rep ++ replaceAll (p :: ps) rep t := by
  have hpre : (p :: ps).isPrefixOf ((p :: ps) ++ t) := by
    rw [List.isPrefixOf_iff_prefix]
    exact List.prefix_append _ _
  have hshape : ((p :: ps) ++ t) = p :: (ps ++ t) := rfl
  have hlen : ((p :: ps) ++ t).length = (ps ++ t).length + 1 := by
    simp
  unfold replaceAll
  rw [hlen, hshape]
  rw [hshape] at hpre
  simp only [replaceAllFuel]
  rw [if_pos hpre]
  congr 1
  rw [show (p :: (ps ++ t)) = (p :: ps) ++ t from rfl, List.drop_left (p :: ps) t]
  apply replaceAllFuel_irrel
  · simp only [List.length_append, List.length_cons]
    omega
  · exact Nat.le_refl _

/-! ### Characters of `pad3` are decimal digits -/

theorem decDigitChar_toNat (d : Nat) (h : d < 10) : (decDigitChar d).toNat = 48 + d := by
  interval_cases d <;> decide

theorem pad3_chars_digits (n : Nat) :
    ∀ c ∈ (pad3 n).data, 48 ≤ c.toNat ∧ c.toNat ≤ 57 := by
  intro c hc
  simp only [pad3, String.data] at hc
  rw [List.mem_append] at hc
  rcases hc with hpad | hdec
  · have : c = '0' := by
      by_cases h : n < 10
      · simp [if_pos h] at hpad
        tauto
      · by_cases h2 : n < 100
        · simp [if_neg h, if_pos h2] at hpad
          tauto
        · simp [if_neg h, if_neg h2] at hpad
    subst this; decide
  · simp only [decChars] at hdec
    by_cases hz : n = 0
    · simp [if_pos hz] at hdec
      subst hdec; decide
    · simp only [if_neg hz, List.mem_reverse, List.mem_map] at hdec
      obtain ⟨d, hd, hcd⟩ := hdec
      have hlt : d < 10 := digitsRevFuel_lt n n d hd
      subst hcd
      rw [decDigitChar_toNat d hlt]
      omega

theorem pad3_no_underscore (n : Nat) : '_' ∉ (pad3 n).data := by
  intro h
  exact absurd (pad3_chars_digits n '_' h) (by decide)

theorem pad3_no_c (n : Nat) : 'c' ∉ (pad3 n).data := by
  intro h
  exact absurd (pad3_chars_digits n 'c' h) (by decide)

/-! ### Helper lemmas -/

theorem cut_id_stem_cut_pad3 (n : Nat) : cut_id_stem ("cut_" ++ pad3 n) = pad3 n := by
  show String.mk (replaceAll "cut_".data "".data ("cut_" ++ pad3 n).data) = pad3 n
  have h1 : "cut_".data = 'c' :: ['u', 't', '_'] := rfl
  have h2 : ("cut_" ++ pad3 n).data = ('c' :: ['u', 't', '_']) ++ (pad3 n).data := rfl
  have h3 : "".data = ([] : List Char) := rfl
  rw [h1, h2, h3, replaceAll_strip_head,
    replaceAll_of_head_not_mem 'c' _ _ _ (pad3_no_c n)]
  rfl

theorem append_underscore_inj (l₁ : List Char) :
    ∀ l₂ r₁ r₂ : List Char, '_' ∉ l₁ → '_' ∉ l₂ →
      l₁ ++ '_' :: r₁ = l₂ ++ '_' :: r₂ → l₁ = l₂ ∧ r₁ = r₂ := by
  induction l₁ with
  | nil =>
    intro l₂ r₁ r₂ _ h₂ heq
    cases l₂ with
    | nil =>
      simp only [List.nil_append, List.cons.injEq, true_and] at heq
      exact ⟨rfl, heq⟩
    | cons c t =>
      simp only [List.nil_append, List.cons_append, List.cons.injEq] at heq
      exfalso
      apply h₂
      rw [heq.1]
      exact List.mem_cons_self c t
  | cons a l ih =>
    intro l₂ r₁ r₂ h₁ h₂ heq
    cases l₂ with
    | nil =>
      simp only [List.cons_append, List.nil_append, List.cons.injEq] at heq
      exfalso
      apply h₁
      rw [← heq.1]
      exact List.mem_cons_self a l
    | cons b t =>
      simp only [List.cons_append, List.cons.injEq] at heq
      obtain ⟨hab, hrest⟩ := heq
      have h₁' : '_' ∉ l := fun h => h₁ (List.mem_cons_of_mem a h)
      have h₂' : '_' ∉ t := fun h => h₂ (List.mem_cons_of_mem b h)
      obtain ⟨hl, hr⟩ := ih t r₁ r₂ h₁' h₂' hrest
      exact ⟨by rw [hab, hl], hr⟩

theorem pad3_data_inj {m n : Nat} (h : (pad3 m).data = (pad3 n).data) : m = n := by
  have := decodeDecChars_pad3_data m
  rw [h, decodeDecChars_pad3_data n] at this
  omega

theorem dbFind_dbSet_self (db : CharDB) (k : String) (r : CharRec) :
    dbFind (dbSet db k r) k = some r := by
  induction db with
  | nil => simp [dbSet, dbFind]
  | cons kv rest ih =>
    by_cases h : kv.1 = k
    · simp [dbSet, if_pos h, dbFind]
    · simp only [dbSet, if_neg h, dbFind]
      exact ih

theorem dbFind_dbSet_ne (db : CharDB) (k k2 : String) (r : CharRec) (h : k ≠ k2) :
    dbFind (dbSet db k2 r) k = dbFind db k := by
  induction db with
  | nil =>
    simp only [dbSet, dbFind]
    rw [if_neg (fun hc => h hc.symm)]
  | cons kv rest ih =>
    by_cases hk : kv.1 = k2
    · simp only [dbSet, if_pos hk, dbFind]
      rw [if_neg (fun hc => h hc.symm), if_neg (fun hc => h (hk ▸ hc).symm)]
    · simp only [dbSet, if_neg hk, dbFind]
      by_cases hkk : kv.1 = k
      · rw [if_pos hkk, if_pos hkk]
      · rw [if_neg hkk, if_neg hkk]
        exact ih

theorem dbFind_isSome_of_mem (db : CharDB) (k : String) (r : CharRec)
    (h : (k, r) ∈ db) : (dbFind db k).isSome = true := by
  induction db with
  | nil => cases h
  | cons kv rest ih =>
    simp only [dbFind]
    by_cases hk : kv.1 = k
    · rw [if_pos hk]
      rfl
    · rw [if_neg hk]
      rcases List.mem_cons.mp h with h1 | h1
      · exact absurd (by rw [← h1]) hk
      · exact ih h1

theorem collect_scenes_empty_counter (xs : List PyVal) :
    ∀ c, (collect_scenes xs c).1 = [] → (collect_scenes xs c).2 = c := by
  induction xs with
  | nil => intro c _; rfl
  | cons x rest ih =>
    intro c h
    cases x with
    | vDict d =>
      by_cases ht : (d.find? (fun kv => kv.1 = "text")).isSome
      · exfalso
        simp [collect_scenes, ht, _get_new_scene_id] at h
      · simp only [collect_scenes, if_neg ht] at h ⊢
        exact ih c h
    | vNone => simp only [collect_scenes] at h ⊢; exact ih c h
    | vBool b => simp only [collect_scenes] at h ⊢; exact ih c h
    | vInt n => simp only [collect_scenes] at h ⊢; exact ih c h
    | vStr s => simp only [collect_scenes] at h ⊢; exact ih c h
    | vList l => simp only [collect_scenes] at h ⊢; exact ih c h

theorem usable_scenes_empty_counter (model : Option GeminiModel) (novel_text : String) :
    (usable_scenes model novel_text).1 = [] → (usable_scenes model novel_text).2 = 0 := by
  unfold usable_scenes
  cases _call_gemini model (scene_segmentation_prompt novel_text) "scene segmentation" with
  | vList xs => exact collect_scenes_empty_counter xs 0
  | vNone => intro _; rfl
  | vBool b => intro _; rfl
  | vInt n => intro _; rfl
  | vStr s => intro _; rfl
  | vDict d => intro _; rfl

/-- Claim C7: for every characters list, every composition descriptor and
every oracle client, `guide_speech_bubble_placement` applied to an empty
dialogue list returns the empty list and performs no oracle invocation. -/
theorem c7_guide_bubble_empty_no_oracle (model : Option GeminiModel)
    (characters_in_cut : List CharView) (composition_settings : PyDict) :
    guide_speech_bubble_placement model [] characters_in_cut composition_settings
      = ([], 0) :=
  rfl

/-- Claim C10: `segment_scenes` never returns an empty list; whenever the
oracle is absent, fails, or returns an empty or unusable response (no
usable scene could be collected), it returns exactly one placeholder scene
carrying a freshly minted cut id. -/
theorem c10_segment_scenes_never_empty (model : Option GeminiModel)
    (novel_text : String) (st : ExtractorState) :
    (segment_scenes model novel_text st).1 ≠ [] ∧
      ((usable_scenes model novel_text).1 = [] →
        (segment_scenes model novel_text st).1 =
          [⟨"cut_" ++ pad3 1, PyVal.vStr (segment_fallback_text model)⟩]) := by
  rcases hU : usable_scenes model novel_text with ⟨fs, c⟩
  have hseg : segment_scenes model novel_text st =
      (if fs.isEmpty then
        ([⟨"cut_" ++ pad3 (c + 1), PyVal.vStr (segment_fallback_text model)⟩],
          { st with scene_id_counter := c + 1 })
      else (fs, { st with scene_id_counter := c })) := by
    unfold segment_scenes
    rw [hU]
    rfl
  constructor

  · intro h
    rw [hseg] at h
    by_cases he : fs.isEmpty
    · rw [if_pos he] at h
      simp at h
    · rw [if_neg he] at h
      have hfs : fs = [] := h
      exact he (by simp [hfs])
  · intro hempty
    have hfs : fs = [] := hempty
    have hc : c = 0 := by
      have h2 := usable_scenes_empty_counter model novel_text (by rw [hU]; exact hempty)
      rw [hU] at h2
      exact h2
    subst hfs
    subst hc
    rw [hseg]
    rfl

theorem c10_witness :
    (segment_scenes Option.none "" ⟨0, 0, 0⟩).1 =
      [⟨"cut_" ++ pad3 1, PyVal.vStr (segment_fallback_text Option.none)⟩] :=
  (c10_segment_scenes_never_empty Option.none "" ⟨0, 0, 0⟩).2 rfl

/-- Claim C2 (refuted by the code): with no oracle model constructed, every
per-cut extraction step of `process_single_cut_text` does return its
documented empty fallback and leaves the store untouched — but the
pipeline does not produce one result per cut: `generate_prompt`
dereferences the absent model and raises, and `main.py`'s driver loop
additionally aborts on an unbound loop variable before any cut completes. -/
theorem c2_disabled_oracle_crashes :
    ((process_single_cut_text Option.none "cut_001" "Wrong Response" "ctx" []
        ⟨0, 0, 1⟩).1.characters = [] ∧
      (process_single_cut_text Option.none "cut_001" "Wrong Response" "ctx" []
        ⟨0, 0, 1⟩).1.composition = [] ∧
      (process_single_cut_text Option.none "cut_001" "Wrong Response" "ctx" []
        ⟨0, 0, 1⟩).1.background = [] ∧
      (process_single_cut_text Option.none "cut_001" "Wrong Response" "ctx" []
        ⟨0, 0, 1⟩).1.dialogues = [] ∧
      (process_single_cut_text Option.none "cut_001" "Wrong Response" "ctx" []
        ⟨0, 0, 1⟩).1.speech_bubble_guidance = [] ∧
      (process_single_cut_text Option.none "cut_001" "Wrong Response" "ctx" []
        ⟨0, 0, 1⟩).2.1 = []) ∧
    generate_prompt Option.none
        (process_single_cut_text Option.none "cut_001" "Wrong Response" "ctx" []
          ⟨0, 0, 1⟩).1 [] =
      Except.error
        "AttributeError: \x27NoneType\x27 object has no attribute \x27generate_content\x27" ∧
    webnovel_to_webtoon_pipeline Option.none "novel" =
      Except.error "NameError: name \x27i\x27 is not defined" :=
  ⟨⟨rfl, rfl, rfl, rfl, rfl, rfl⟩, rfl, rfl⟩

theorem find?_append_first {α} (p : α → Bool) (l₁ l₂ : List α) :
    (l₁ ++ l₂).find? p =
      match l₁.find? p with
      | some a => some a
      | none => l₂.find? p := by
  induction l₁ with
  | nil => rfl
  | cons a t ih =>
    simp only [List.cons_append, List.find?]
    cases p a <;> simp [ih]

theorem guidance_for_dialogue_orphan (pre post : List PyVal) (orphan : PyVal)
    (dlg : Dialogue)
    (h : pyBeq (pyGetV orphan "dialogue_id") (PyVal.vStr dlg.id) = false) :
    guidance_for_dialogue (pre ++ orphan :: post) dlg =
      guidance_for_dialogue (pre ++ post) dlg := by
  unfold guidance_for_dialogue
  rw [find?_append_first, find?_append_first]
  cases hf : pre.find? (fun g => pyBeq (pyGetV g "dialogue_id") (PyVal.vStr dlg.id)) with
  | some g => rfl
  | none =>
    simp only [List.find?, h]

/-- Claim C9: a bubble-guidance entry whose `dialogue_id` matches no
dialogue id in the cut never affects `add_dialogues_to_image`: the output
with the orphan entry present equals the output with it removed, so the
composition completes and the orphan contributes nothing. -/
theorem c9_orphan_guidance_ignored (base_image_data : String)
    (dialogues_for_cut : List Dialogue) (pre post : List PyVal) (orphan : PyVal)
    (h : ∀ dlg ∈ dialogues_for_cut,
      pyBeq (pyGetV orphan "dialogue_id") (PyVal.vStr dlg.id) = false) :
    add_dialogues_to_image base_image_data dialogues_for_cut (pre ++ orphan :: post) =
      add_dialogues_to_image base_image_data dialogues_for_cut (pre ++ post) := by
  unfold add_dialogues_to_image
  by_cases he : dialogues_for_cut.isEmpty
  · rw [if_pos he, if_pos he]
  · rw [if_neg he, if_neg he]
    have hmap : dialogues_for_cut.map (dialogue_overlay_line (pre ++ orphan :: post)) =
        dialogues_for_cut.map (dialogue_overlay_line (pre ++ post)) := by
      apply List.map_congr_left
      intro dlg hdlg
      unfold dialogue_overlay_line
      rw [guidance_for_dialogue_orphan pre post orphan dlg (h dlg hdlg)]
    rw [hmap]

theorem c9_witness :
    add_dialogues_to_image "IMG"
        [⟨[("id", PyVal.vStr "dlg_001_001")], "dlg_001_001", Option.none⟩]
        ([] ++ PyVal.vDict [("dialogue_id", PyVal.vStr "dlg_999_001")] :: []) =
      add_dialogues_to_image "IMG"
        [⟨[("id", PyVal.vStr "dlg_001_001")], "dlg_001_001", Option.none⟩]
        ([] ++ []) :=
  c9_orphan_guidance_ignored "IMG"
    [⟨[("id", PyVal.vStr "dlg_001_001")], "dlg_001_001", Option.none⟩]
    [] [] (PyVal.vDict [("dialogue_id", PyVal.vStr "dlg_999_001")]) (by decide)

/-- Claim C8: for every segmented input of at least 3 cuts, the context
string the driver loop constructs for cut 3 literally contains cut 2's
text verbatim. -/
theorem c8_context_contains_previous_cut (segmented_scenes : List Scene)
    (novel_text s : String) (h3 : 3 ≤ segmented_scenes.length)
    (ht : (segmented_scenes.getD 1 ⟨"", PyVal.vStr ""⟩).text = PyVal.vStr s) :
    ∃ pre post,
      (test_driver_scene_contexts segmented_scenes novel_text).getD 2 "" =
        pre ++ s ++ post := by
  refine ⟨"이전 컷 내용: ",
    "\n\n현재 분석할 장면의 전체적인 문맥: " ++ novel_text.take 500, ?_⟩
  have h2 : 2 < segmented_scenes.length := by omega
  have hget : ((List.range segmented_scenes.length).map
        (build_scene_context segmented_scenes (novel_text.take 500))).get? 2 =
      some (build_scene_context segmented_scenes (novel_text.take 500) 2) := by
    rw [List.get?_map, List.get?_range h2]
    rfl
  have hc : (test_driver_scene_contexts segmented_scenes novel_text).getD 2 "" =
      build_scene_context segmented_scenes (novel_text.take 500) 2 := by
    unfold test_driver_scene_contexts
    rw [List.getD_eq_get?, hget]
    rfl
  rw [hc]
  unfold build_scene_context
  rw [if_pos (by omega : 0 < 2)]
  rw [show (2 - 1 : Nat) = 1 from rfl, ht]
  show "이전 컷 내용: " ++ s ++ "\n\n현재 분석할 장면의 전체적인 문맥: " ++ novel_text.take 500 = _
  rw [String.append_assoc, String.append_assoc]

theorem c8_witness :
    ∃ pre post,
      (test_driver_scene_contexts
          [⟨"cut_001", PyVal.vStr "첫째"⟩, ⟨"cut_002", PyVal.vStr "둘째"⟩,
            ⟨"cut_003", PyVal.vStr "셋째"⟩] "소설").getD 2 "" =
        pre ++ "둘째" ++ post :=
  c8_context_contains_previous_cut
    [⟨"cut_001", PyVal.vStr "첫째"⟩, ⟨"cut_002", PyVal.vStr "둘째"⟩,
      ⟨"cut_003", PyVal.vStr "셋째"⟩] "소설" "둘째" (by decide) rfl

theorem find_speaker_in_views_eq (db : CharDB) (guess : PyVal) (views : List CharView) :
    find_speaker_in_views db guess views =
      (views.find? (fun v =>
        match dbFind db v.id with
        | some rec => char_matches_guess rec guess
        | none => false)).map (fun v => v.id) := by
  induction views with
  | nil => rfl
  | cons v rest ih =>
    simp only [find_speaker_in_views, List.find?]
    cases hdb : dbFind db v.id with
    | some rec =>
      by_cases hm : char_matches_guess rec guess
      · simp [hdb, hm]
      · simp [hdb, hm, ih]
    | none => simp [hdb, ih]

theorem find_speaker_in_db_eq (guess : PyVal) (db : CharDB) :
    find_speaker_in_db guess db =
      (db.find? (fun kr => char_matches_guess kr.2 guess)).map (fun kr => kr.1) := by
  induction db with
  | nil => rfl
  | cons kr rest ih =>
    obtain ⟨k, rec⟩ := kr
    simp only [find_speaker_in_db, List.find?]
    by_cases hm : char_matches_guess rec guess
    · simp [hm]
    · simp [hm, ih]

/-- Claim C3: for a non-empty string speaker-name guess, attribution is:
(a) first view of the current cut whose store record matches the guess
exactly by name or alias; (b) failing that, the first store record (in
insertion order) matching by name or alias; (c) otherwise null.  First
match wins and matching is exact equality only. -/
theorem c3_speaker_attribution_policy (views : List CharView) (db : CharDB)
    (s : String) (h : s ≠ "") :
    resolve_speaker_id views db (PyVal.vStr s) =
      (match views.find? (fun v =>
          match dbFind db v.id with
          | some rec => char_matches_guess rec (PyVal.vStr s)
          | none => false) with
        | some v => some v.id
        | none =>
          (db.find? (fun kr => char_matches_guess kr.2 (PyVal.vStr s))).map
            (fun kr => kr.1)) := by
  unfold resolve_speaker_id
  rw [if_pos (by simp [pyTruthy, h])]
  rw [find_speaker_in_views_eq, find_speaker_in_db_eq]
  cases views.find? (fun v =>
      match dbFind db v.id with
      | some rec => char_matches_guess rec (PyVal.vStr s)
      | none => false) with
  | some v => rfl
  | none => rfl

theorem c3_witness :
    resolve_speaker_id
        [⟨"char_001", PyVal.vStr "영희", PyVal.vNone, PyVal.vNone, PyVal.vNone,
          PyVal.vNone, PyVal.vNone⟩]
        [("char_001",
          ⟨"char_001", PyVal.vStr "영희", [PyVal.vStr "그녀"], PyVal.vNone, PyVal.vNone,
            "cut_001", "cut_001", [], []⟩)]
        (PyVal.vStr "그녀") =
      (match ([⟨"char_001", PyVal.vStr "영희", PyVal.vNone, PyVal.vNone, PyVal.vNone,
            PyVal.vNone, PyVal.vNone⟩] : List CharView).find? (fun v =>
          match dbFind [("char_001",
            ⟨"char_001", PyVal.vStr "영희", [PyVal.vStr "그녀"], PyVal.vNone, PyVal.vNone,
              "cut_001", "cut_001", [], []⟩)] v.id with
          | some rec => char_matches_guess rec (PyVal.vStr "그녀")
          | none => false) with
        | some v => some v.id
        | none =>
          (([("char_001",
            ⟨"char_001", PyVal.vStr "영희", [PyVal.vStr "그녀"], PyVal.vNone, PyVal.vNone,
              "cut_001", "cut_001", [], []⟩)] : CharDB).find?
            (fun kr => char_matches_guess kr.2 (PyVal.vStr "그녀"))).map
            (fun kr => kr.1)) :=
  c3_speaker_attribution_policy
    [⟨"char_001", PyVal.vStr "영희", PyVal.vNone, PyVal.vNone, PyVal.vNone,
      PyVal.vNone, PyVal.vNone⟩]
    [("char_001",
      ⟨"char_001", PyVal.vStr "영희", [PyVal.vStr "그녀"], PyVal.vNone, PyVal.vNone,
        "cut_001", "cut_001", [], []⟩)]
    "그녀" (by decide)

theorem dbFind_isSome_cons (kv : String × CharRec) (rest : CharDB) (k : String)
    (h : (dbFind rest k).isSome = true) : (dbFind (kv :: rest) k).isSome = true := by
  simp only [dbFind]
  by_cases hk : kv.1 = k
  · rw [if_pos hk]; rfl
  · rw [if_neg hk]; exact h

theorem find_speaker_in_views_isSome (db : CharDB) (guess : PyVal)
    (views : List CharView) (cid : String)
    (h : find_speaker_in_views db guess views = some cid) :
    (dbFind db cid).isSome = true := by
  induction views with
  | nil => cases h
  | cons v rest ih =>
    simp only [find_speaker_in_views] at h
    split at h
    · rename_i rec hdb
      split at h
      · have hv : v.id = cid := by injection h
        rw [← hv, hdb]
        rfl
      · exact ih h
    · exact ih h

theorem find_speaker_in_db_isSome (guess : PyVal) (db : CharDB) (k : String)
    (h : find_speaker_in_db guess db = some k) : (dbFind db k).isSome = true := by
  induction db with
  | nil => cases h
  | cons kr rest ih =>
    obtain ⟨k1, rec⟩ := kr
    simp only [find_speaker_in_db] at h
    by_cases hm : char_matches_guess rec guess
    · rw [if_pos hm] at h
      have : k1 = k := by injection h
      simp only [dbFind]
      rw [if_pos this]
      rfl
    · rw [if_neg hm] at h
      exact dbFind_isSome_cons (k1, rec) rest k (ih h)

theorem resolve_speaker_id_isSome (views : List CharView) (db : CharDB)
    (guess : PyVal) (sid : String)
    (h : resolve_speaker_id views db guess = some sid) :
    (dbFind db sid).isSome = true := by
  unfold resolve_speaker_id at h
  by_cases ht : pyTruthy guess
  · rw [if_pos ht] at h
    split at h
    · rename_i cid hv
      have hcs : cid = sid := by injection h
      exact hcs ▸ find_speaker_in_views_isSome db guess views cid hv
    · rename_i hv
      exact find_speaker_in_db_isSome guess db sid h
  · rw [if_neg ht] at h
    cases h

/-- Claim C4: every dialogue returned by `process_single_cut_text` whose
`speaker_id` is non-null references a key present in the character
identity store as it stands at (and after) the moment of attribution. -/
theorem c4_dialogue_speaker_in_store (model : Option GeminiModel)
    (cut_id cut_text scene_context : String) (character_database : CharDB)
    (st : ExtractorState) (dlg : Dialogue) (sid : String)
    (hdlg : dlg ∈ (process_single_cut_text model cut_id cut_text scene_context
      character_database st).1.dialogues)
    (hsid : dlg.speaker_id = some sid) :
    (dbFind (process_single_cut_text model cut_id cut_text scene_context
      character_database st).2.1 sid).isSome = true := by
  have hdlg2 : dlg ∈ attribute_speakers
      (resolve_cut_characters cut_id (configure_characters model cut_text scene_context
        character_database st.character_id_counter).1 character_database).1
      (resolve_cut_characters cut_id (configure_characters model cut_text scene_context
        character_database st.character_id_counter).1 character_database).2
      (separate_dialogues model cut_text (cut_id_stem cut_id)).1 := hdlg
  have hdb : (process_single_cut_text model cut_id cut_text scene_context
      character_database st).2.1 =
      (resolve_cut_characters cut_id (configure_characters model cut_text scene_context
        character_database st.character_id_counter).1 character_database).2 := rfl
  rw [hdb]
  unfold attribute_speakers at hdlg2
  rcases List.mem_map.mp hdlg2 with ⟨raw, _, hre⟩
  have hspk : dlg.speaker_id = resolve_speaker_id
      (resolve_cut_characters cut_id (configure_characters model cut_text scene_context
        character_database st.character_id_counter).1 character_database).1
      (resolve_cut_characters cut_id (configure_characters model cut_text scene_context
        character_database st.character_id_counter).1 character_database).2
      (pyGet raw.fields "speaker_name_guess") := by
    rw [← hre]
  rw [hsid] at hspk
  exact resolve_speaker_id_isSome _ _ _ sid hspk.symm

theorem process_llm_chars_new_fresh (db : CharDB) (items : List PyVal) :
    ∀ c p, p ∈ (process_llm_chars db items c).1 → p.is_actually_new = true →
      ∃ n, c < n ∧ p.id = "char_" ++ pad3 n := by
  induction items with
  | nil => intro c p hp; cases hp
  | cons x rest ih =>
    intro c p hp hnew
    cases x with
    | vDict d =>
      cases hm : mergeable_char_id db (pyGet d "id") with
      | some s =>
        simp only [process_llm_chars, process_llm_char, hm] at hp
        rcases List.mem_cons.mp hp with h1 | h1
        · exfalso
          rw [h1] at hnew
          simp at hnew
        · exact ih c p h1 hnew
      | none =>
        simp only [process_llm_chars, process_llm_char, hm, _get_new_character_id] at hp
        rcases List.mem_cons.mp hp with h1 | h1
        · exact ⟨c + 1, Nat.lt_succ_self c, by rw [h1]⟩
        · obtain ⟨n, hn, hid⟩ := ih (c + 1) p h1 hnew
          exact ⟨n, by omega, hid⟩
    | vNone => simp only [process_llm_chars] at hp; exact ih c p hp hnew
    | vBool b => simp only [process_llm_chars] at hp; exact ih c p hp hnew
    | vInt n => simp only [process_llm_chars] at hp; exact ih c p hp hnew
    | vStr s => simp only [process_llm_chars] at hp; exact ih c p hp hnew
    | vList l => simp only [process_llm_chars] at hp; exact ih c p hp hnew

theorem configure_characters_new_fresh (model : Option GeminiModel)
    (cut_text scene_context : String) (db : CharDB) (c : Nat) :
    ∀ p ∈ (configure_characters model cut_text scene_context db c).1,
      p.is_actually_new = true → ∃ n, c < n ∧ p.id = "char_" ++ pad3 n := by
  unfold configure_characters
  cases _call_gemini model
      (character_configuration_prompt cut_text scene_context db)
      "character configuration with continuity" with
  | vList items => exact fun p hp => process_llm_chars_new_fresh db items c p hp
  | vNone => intro p hp; cases hp
  | vBool b => intro p hp; cases hp
  | vInt n => intro p hp; cases hp
  | vStr s => intro p hp; cases hp
  | vDict d => intro p hp; cases hp

theorem update_db_preserves_aliases (cut_id : String) (db : CharDB)
    (ch : LlmCharacter) (k : String) (r : CharRec) (hr : dbFind db k = some r)
    (hne : ch.is_actually_new = true → ch.id ≠ k) :
    ∃ r1, dbFind (update_db_for_char cut_id db ch) k = some r1 ∧
      ∀ a ∈ r.aliases, a ∈ r1.aliases := by
  unfold update_db_for_char
  by_cases hnew : ch.is_actually_new = true
  · rw [if_pos hnew]
    refine ⟨r, ?_, fun a ha => ha⟩
    rw [dbFind_dbSet_ne db k ch.id _ (fun hc => (hne hnew) hc.symm)]
    exact hr
  · rw [if_neg hnew]
    cases hex : dbFind db ch.id with
    | none => exact ⟨r, hr, fun a ha => ha⟩
    | some existing =>
      by_cases hid : ch.id = k
      · have hexr : existing = r := by
          rw [hid] at hex
          rw [hex] at hr
          injection hr
        refine ⟨{ existing with
            name := pyGetOr ch.fields "name" existing.name,
            aliases := aliasUnion existing.aliases
              (pyListD (pyGetOr ch.fields "aliases" (PyVal.vList []))),
            appearance := if pyTruthy (pyGet ch.fields "appearance") then
              pyGet ch.fields "appearance" else existing.appearance,
            outfit := if pyTruthy (pyGet ch.fields "outfit") then
              pyGet ch.fields "outfit" else existing.outfit,
            last_seen_cut := cut_id,
            all_actions := pySet existing.all_actions cut_id (pyGet ch.fields "action"),
            all_emotions := pySet existing.all_emotions cut_id (pyGet ch.fields "emotion") },
          ?_, ?_⟩
        · rw [← hid]
          exact dbFind_dbSet_self db ch.id _
        · intro a ha
          show a ∈ aliasUnion existing.aliases
            (pyListD (pyGetOr ch.fields "aliases" (PyVal.vList [])))
          unfold aliasUnion
          exact List.mem_append_left _ (hexr ▸ ha)
      · refine ⟨r, ?_, fun a ha => ha⟩
        rw [dbFind_dbSet_ne db k ch.id _ (fun hc => hid hc.symm)]
        exact hr

theorem resolve_cut_preserves_aliases (cut_id : String) (k : String)
    (ms : List LlmCharacter)
    (hms : ∀ p ∈ ms, p.is_actually_new = true → p.id ≠ k) :
    ∀ db r, dbFind db k = some r →
      ∃ r2, dbFind (resolve_cut_characters cut_id ms db).2 k = some r2 ∧
        ∀ a ∈ r.aliases, a ∈ r2.aliases := by
  induction ms with
  | nil => intro db r hr; exact ⟨r, hr, fun a ha => ha⟩
  | cons ch rest ih =>
    intro db r hr
    have hms_rest : ∀ p ∈ rest, p.is_actually_new = true → p.id ≠ k :=
      fun p hp => hms p (List.mem_cons_of_mem ch hp)
    have htail : (resolve_cut_characters cut_id (ch :: rest) db).2 =
        (resolve_cut_characters cut_id rest (update_db_for_char cut_id db ch)).2 := rfl
    rw [htail]
    obtain ⟨r1, hr1, hsub1⟩ := update_db_preserves_aliases cut_id db ch k r hr
      (hms ch (List.mem_cons_self _ _))
    obtain ⟨r2, hr2, hsub2⟩ := ih hms_rest _ r1 hr1
    exact ⟨r2, hr2, fun a ha => hsub2 a (hsub1 a ha)⟩

/-- Claim C5: processing a cut only grows the alias set of every character
id already present in the identity store — aliases are extended by set
union with the newly observed ones and never removed.  The freshness
hypothesis states that the store holds no id the counter has not yet
minted, which is invariant across a pipeline run (the store starts empty
and every record is created under a freshly minted id). -/
theorem c5_aliases_monotone (model : Option GeminiModel)
    (cut_id cut_text scene_context : String) (character_database : CharDB)
    (st : ExtractorState) (k : String) (r : CharRec)
    (hfresh : ∀ n, st.character_id_counter < n →
      dbFind character_database ("char_" ++ pad3 n) = none)
    (hk : dbFind character_database k = some r) :
    ∃ r2, dbFind (process_single_cut_text model cut_id cut_text scene_context
        character_database st).2.1 k = some r2 ∧
      ∀ a ∈ r.aliases, a ∈ r2.aliases := by
  have hdb : (process_single_cut_text model cut_id cut_text scene_context
      character_database st).2.1 =
      (resolve_cut_characters cut_id (configure_characters model cut_text scene_context
        character_database st.character_id_counter).1 character_database).2 := rfl
  rw [hdb]
  apply resolve_cut_preserves_aliases cut_id k _ _ character_database r hk
  intro p hp hnew hkid
  obtain ⟨n, hn, hid⟩ := configure_characters_new_fresh model cut_text scene_context
    character_database st.character_id_counter p hp hnew
  rw [hid] at hkid
  rw [← hkid, hfresh n hn] at hk
  cases hk

theorem char_id_pad3_inj {m n : Nat}
    (h : ("char_" ++ pad3 m : String) = "char_" ++ pad3 n) : m = n := by
  have hdata : ('c' :: 'h' :: 'a' :: 'r' :: '_' :: (pad3 m).data) =
      ('c' :: 'h' :: 'a' :: 'r' :: '_' :: (pad3 n).data) := congrArg String.data h
  simp only [List.cons.injEq, true_and] at hdata
  exact pad3_data_inj hdata

theorem sample_store_fresh : ∀ n, 1 < n →
    dbFind sample_store ("char_" ++ pad3 n) = none := by
  intro n hn
  show (if "char_001" = ("char_" ++ pad3 n : String) then
    some (⟨"char_001", PyVal.vStr "영희", [PyVal.vStr "그녀"], PyVal.vNone, PyVal.vNone,
      "cut_001", "cut_001", [], []⟩ : CharRec) else none) = none
  rw [if_neg]
  intro heq
  have h1 : ("char_" ++ pad3 1 : String) = "char_" ++ pad3 n := by
    rw [show ("char_" ++ pad3 1 : String) = "char_001" by decide]
    exact heq
  have := char_id_pad3_inj h1
  omega

theorem c4_witness :
    (dbFind (process_single_cut_text (some oracle_new_char) "cut_001" "본문" "ctx" []
        ⟨0, 0, 0⟩).2.1 "char_001").isSome = true :=
  c4_dialogue_speaker_in_store (some oracle_new_char) "cut_001" "본문" "ctx" []
    ⟨0, 0, 0⟩
    ⟨[("speaker_name_guess", PyVal.vStr "영희"), ("text", PyVal.vStr "안녕"),
      ("nuance", PyVal.vStr "기쁨"), ("id", PyVal.vStr "dlg_001_001"),
      ("speaker_id", PyVal.vStr "char_001")], "dlg_001_001", some "char_001"⟩
    "char_001"
    (by
      have h : (process_single_cut_text (some oracle_new_char) "cut_001" "본문" "ctx" []
          ⟨0, 0, 0⟩).1.dialogues =
          [⟨[("speaker_name_guess", PyVal.vStr "영희"), ("text", PyVal.vStr "안녕"),
            ("nuance", PyVal.vStr "기쁨"), ("id", PyVal.vStr "dlg_001_001"),
            ("speaker_id", PyVal.vStr "char_001")], "dlg_001_001", some "char_001"⟩] := rfl
      rw [h]
      exact List.mem_cons_self _ _)
    rfl

theorem c5_witness :
    ∃ r2, dbFind (process_single_cut_text (some oracle_merge_alias) "cut_002" "본문"
        "ctx" sample_store ⟨1, 0, 1⟩).2.1 "char_001" = some r2 ∧
      ∀ a ∈ (⟨"char_001", PyVal.vStr "영희", [PyVal.vStr "그녀"], PyVal.vNone,
        PyVal.vNone, "cut_001", "cut_001", [], []⟩ : CharRec).aliases,
        a ∈ r2.aliases :=
  c5_aliases_monotone (some oracle_merge_alias) "cut_002" "본문" "ctx" sample_store
    ⟨1, 0, 1⟩ "char_001"
    ⟨"char_001", PyVal.vStr "영희", [PyVal.vStr "그녀"], PyVal.vNone, PyVal.vNone,
      "cut_001", "cut_001", [], []⟩
    sample_store_fresh rfl

theorem mergeable_char_id_some_iff (db : CharDB) (v : PyVal) (s : String) :
    mergeable_char_id db v = some s ↔
      v = PyVal.vStr s ∧ pyStartsWith s "char_" = true ∧ (dbFind db s).isSome = true := by
  constructor
  · intro h
    cases v with
    | vStr t =>
      simp only [mergeable_char_id] at h
      by_cases hc : t = "NEW" ∨ ¬pyStartsWith t "char_" = true
      · rw [if_pos hc] at h; cases h
      · rw [if_neg hc] at h
        by_cases hs : (dbFind db t).isSome = true
        · rw [if_pos hs] at h
          have hts : t = s := by injection h
          subst hts
          have hsw : pyStartsWith t "char_" = true := by
            by_contra hx
            exact hc (Or.inr hx)
          exact ⟨rfl, hsw, hs⟩
        · rw [if_neg hs] at h; cases h
    | vNone => simp only [mergeable_char_id] at h; cases h
    | vBool b => simp only [mergeable_char_id] at h; cases h
    | vInt n => simp only [mergeable_char_id] at h; cases h
    | vList l => simp only [mergeable_char_id] at h; cases h
    | vDict d => simp only [mergeable_char_id] at h; cases h
  · rintro ⟨rfl, hsw, hsome⟩
    simp only [mergeable_char_id]
    rw [if_neg, if_pos hsome]
    rintro (h1 | h1)
    · rw [h1] at hsw
      exact absurd hsw (by decide)
    · exact h1 hsw

theorem process_llm_chars_merge_rule (db : CharDB) (items : List PyVal) :
    ∀ c, ∀ pair ∈ (items.filterMap (fun v =>
        match v with
        | PyVal.vDict d => some d
        | _ => none)).zip (process_llm_chars db items c).1,
      (pair.2.is_actually_new = false ↔
        ∃ s, pyGet pair.1 "id" = PyVal.vStr s ∧ pyStartsWith s "char_" = true ∧
          (dbFind db s).isSome = true) ∧
      (pair.2.is_actually_new = false →
        ∃ s, pyGet pair.1 "id" = PyVal.vStr s ∧ pair.2.id = s) ∧
      ((∀ n, c < n → dbFind db ("char_" ++ pad3 n) = none) →
        pair.2.is_actually_new = true → dbFind db pair.2.id = none) := by
  induction items with
  | nil => intro c pair hp; cases hp
  | cons x rest ih =>
    intro c pair hp
    cases x with
    | vDict d =>
      cases hm : mergeable_char_id db (pyGet d "id") with
      | some s =>
        simp only [process_llm_chars, process_llm_char, hm, List.filterMap_cons,
          List.zip_cons_cons] at hp
        rcases List.mem_cons.mp hp with h1 | h1
        · subst h1
          obtain ⟨hv, hsw, hsome⟩ := (mergeable_char_id_some_iff db (pyGet d "id") s).mp hm
          refine ⟨⟨fun _ => ⟨s, hv, hsw, hsome⟩, fun _ => rfl⟩, fun _ => ⟨s, hv, rfl⟩, ?_⟩
          intro _ hnew
          cases hnew
        · exact ih c pair h1
      | none =>
        simp only [process_llm_chars, process_llm_char, hm, _get_new_character_id,
          List.filterMap_cons, List.zip_cons_cons] at hp
        rcases List.mem_cons.mp hp with h1 | h1
        · subst h1
          refine ⟨⟨fun hfalse => (by cases hfalse), ?_⟩,
            fun hfalse => (by cases hfalse), ?_⟩
          · rintro ⟨s, hv, hsw, hsome⟩
            have : mergeable_char_id db (pyGet d "id") = some s :=
              (mergeable_char_id_some_iff db (pyGet d "id") s).mpr ⟨hv, hsw, hsome⟩
            rw [hm] at this
            cases this
          · intro hfresh _
            exact hfresh (c + 1) (Nat.lt_succ_self c)
        · obtain ⟨hiff, hmrg, hfr⟩ := ih (c + 1) pair h1
          exact ⟨hiff, hmrg, fun hfresh => hfr (fun n hn => hfresh n (by omega))⟩
    | vNone => simp only [process_llm_chars, List.filterMap_cons] at hp; exact ih c pair hp
    | vBool b => simp only [process_llm_chars, List.filterMap_cons] at hp; exact ih c pair hp
    | vInt n => simp only [process_llm_chars, List.filterMap_cons] at hp; exact ih c pair hp
    | vStr s => simp only [process_llm_chars, List.filterMap_cons] at hp; exact ih c pair hp
    | vList l => simp only [process_llm_chars, List.filterMap_cons] at hp; exact ih c pair hp

/-- Claim C1 (amended): a mention returned by the oracle is treated as new
(fresh id minted, `is_actually_new` set) exactly when its suggested id is
not a string that starts with `char_` and exists in the store; every other
mention is merged into the id it referenced.  Freshness of the minted id
holds whenever the store contains no id beyond the current counter.  The
`is_new_character_suggestion` flag plays no role in the decision. -/
theorem c1_new_vs_merge_decision (model : Option GeminiModel)
    (cut_text scene_context : String) (db : CharDB) (c : Nat) :
    ∀ pair ∈ ((pyListD (_call_gemini model
        (character_configuration_prompt cut_text scene_context db)
        "character configuration with continuity")).filterMap (fun v =>
          match v with
          | PyVal.vDict d => some d
          | _ => none)).zip
        (configure_characters model cut_text scene_context db c).1,
      (pair.2.is_actually_new = false ↔
        ∃ s, pyGet pair.1 "id" = PyVal.vStr s ∧ pyStartsWith s "char_" = true ∧
          (dbFind db s).isSome = true) ∧
      (pair.2.is_actually_new = false →
        ∃ s, pyGet pair.1 "id" = PyVal.vStr s ∧ pair.2.id = s) ∧
      ((∀ n, c < n → dbFind db ("char_" ++ pad3 n) = none) →
        pair.2.is_actually_new = true → dbFind db pair.2.id = none) := by
  unfold configure_characters
  cases _call_gemini model (character_configuration_prompt cut_text scene_context db)
      "character configuration with continuity" with
  | vList items => exact fun pair hp => process_llm_chars_merge_rule db items c pair hp
  | vNone => intro pair hp; cases hp
  | vBool b => intro pair hp; cases hp
  | vInt n => intro pair hp; cases hp
  | vStr s => intro pair hp; cases hp
  | vDict d => intro pair hp; cases hp

/-- Claim C1, counterexample to the claim as stated: a mention explicitly
flagged novel (`is_new_character_suggestion: true`) whose suggested id
`char_001` exists in the store is merged into `char_001` — no fresh id is
minted (the counter is unchanged) — whereas the claim demands it be
treated as new. -/
theorem c1_flagged_novel_merged_counterexample :
    pyTruthy (pyGet [("id", PyVal.vStr "char_001"),
        ("is_new_character_suggestion", PyVal.vBool true)]
      "is_new_character_suggestion") = true ∧
    ((configure_characters (some oracle_flagged_novel) "본문" "ctx" sample_store 5).1.map
        (fun p => (p.id, p.is_actually_new))) = [("char_001", false)] ∧
    (configure_characters (some oracle_flagged_novel) "본문" "ctx" sample_store 5).2 = 5 :=
  ⟨rfl, rfl, rfl⟩

theorem c1_witness :
    (flagged_pair.2.is_actually_new = false ↔
      ∃ s, pyGet flagged_pair.1 "id" = PyVal.vStr s ∧ pyStartsWith s "char_" = true ∧
        (dbFind sample_store s).isSome = true) ∧
    (flagged_pair.2.is_actually_new = false →
      ∃ s, pyGet flagged_pair.1 "id" = PyVal.vStr s ∧ flagged_pair.2.id = s) ∧
    ((∀ n, 5 < n → dbFind sample_store ("char_" ++ pad3 n) = none) →
      flagged_pair.2.is_actually_new = true →
      dbFind sample_store flagged_pair.2.id = none) :=
  c1_new_vs_merge_decision (some oracle_flagged_novel) "본문" "ctx" sample_store 5
    flagged_pair
    (by
      have h : ((pyListD (_call_gemini (some oracle_flagged_novel)
            (character_configuration_prompt "본문" "ctx" sample_store)
            "character configuration with continuity")).filterMap (fun v =>
              match v with
              | PyVal.vDict d => some d
              | _ => none)).zip
            (configure_characters (some oracle_flagged_novel) "본문" "ctx"
              sample_store 5).1 = [flagged_pair] := rfl
      rw [h]
      exact List.mem_cons_self _ _)

/-- Claim C6: dialogue ids minted for scene-counter-generated cut ids are
globally unique across a run: two dialogues collide only if they belong to
the same cut (equal scene counter) and carry the same per-cut dialogue
counter, even though that counter resets every cut. -/
theorem c6_dialogue_ids_globally_distinct (i j a b : Nat) (h : i ≠ j ∨ a ≠ b) :
    (_get_new_dialogue_id (cut_id_stem ("cut_" ++ pad3 i)) a).1 ≠
      (_get_new_dialogue_id (cut_id_stem ("cut_" ++ pad3 j)) b).1 := by
  rw [cut_id_stem_cut_pad3 i, cut_id_stem_cut_pad3 j]
  intro heq
  have hdata : ('d' :: 'l' :: 'g' :: '_' ::
        (((pad3 i).data ++ ['_']) ++ (pad3 (a + 1)).data)) =
      ('d' :: 'l' :: 'g' :: '_' ::
        (((pad3 j).data ++ ['_']) ++ (pad3 (b + 1)).data)) :=
    congrArg String.data heq
  simp only [List.cons.injEq, true_and, List.append_assoc,
    List.singleton_append] at hdata
  obtain ⟨h1, h2⟩ := append_underscore_inj (pad3 i).data (pad3 j).data
    (pad3 (a + 1)).data (pad3 (b + 1)).data (pad3_no_underscore i)
    (pad3_no_underscore j) hdata
  rcases h with hij | hab
  · exact hij (pad3_data_inj h1)
  · exact hab (by have := pad3_data_inj h2; omega)

theorem c6_witness :
    (_get_new_dialogue_id (cut_id_stem ("cut_" ++ pad3 1)) 0).1 ≠
      (_get_new_dialogue_id (cut_id_stem ("cut_" ++ pad3 2)) 0).1 :=
  c6_dialogue_ids_globally_distinct 1 2 0 0 (Or.inl (by decide))
